import Mathlib

set_option maxHeartbeats 1000000
set_option maxRecDepth 4000

/-
  Verification development for the boomerang-sidekick chat client.

  The repository is a TypeScript/React single-page chat interface.  The
  definitions below are a shallow embedding, translated from the source
  files (the main page component, the country-detection utility and the
  language hook).  JavaScript strings are modelled as lists of characters
  (abbreviation Str), JSON runtime values as the inductive type Json,
  browser localStorage as a map from keys to optional stored values, and
  fallible JavaScript operations as Except-valued functions whose error
  case models a thrown exception.
-/

/- ------------------------------------------------------------------ -/
/- JavaScript string primitives                                        -/
/- ------------------------------------------------------------------ -/

abbrev Str := List Char

/-- The JavaScript whitespace class (ASCII part), as matched by the
regular expression used in truncateTitle and by String.prototype.trim. -/
def isWs (c : Char) : Bool :=
  c = ' ' || c = '\t' || c = '\n' || c = '\r' || c = '\x0b' || c = '\x0c'

/-- title.trim() : drop leading and trailing whitespace. -/
def jsTrim (s : Str) : Str :=
  ((s.dropWhile isWs).reverse.dropWhile isWs).reverse

/-- Auxiliary splitter: one step takes the maximal non-whitespace word and
skips the following whitespace run.  Fuel bounds the recursion; each step
on a nonempty list consumes at least one character, so fuel = length is
always sufficient. -/
def splitWsAux : Nat → Str → List Str
  | 0, _ => []
  | _, [] => []
  | fuel+1, c :: cs =>
      let l := c :: cs
      let w := l.takeWhile (fun ch => !(isWs ch))
      let rest := (l.dropWhile (fun ch => !(isWs ch))).dropWhile isWs
      w :: splitWsAux fuel rest

/-- s.split(/\s+/) on an already-trimmed string; on the empty string the
JavaScript result is a one-element array holding the empty string. -/
def jsSplitWs (l : Str) : List Str :=
  if l.isEmpty then [[]] else splitWsAux l.length l

/-- The ellipsis suffix appended by the truncation helpers. -/
def ellipsis : Str := '.' :: '.' :: '.' :: []

/-- truncateTitle from the page component: split the trimmed title on
whitespace runs; at most maxWords words are kept; the joined prefix is cut
to 57 characters when longer than 60; an ellipsis is appended. -/
def truncateTitle (title : Str) (maxWords : Nat) : Str :=
  let words := jsSplitWs (jsTrim title)
  if words.length ≤ maxWords then title
  else
    let truncated := List.intercalate [' '] (words.take maxWords)
    if 60 < truncated.length then truncated.take 57 ++ ellipsis
    else truncated ++ ellipsis

/-- A 7-word title (each word nine characters) whose 6-word prefix joins to
59 characters; used to evaluate truncateTitle concretely. -/
def longTitle : Str :=
  ("aaaaaaaaa aaaaaaaaa aaaaaaaaa aaaaaaaaa aaaaaaaaa aaaaaaaaa aaaaaaaaa".data)

/- ------------------------------------------------------------------ -/
/- JSON runtime values                                                 -/
/- ------------------------------------------------------------------ -/

/-- A JavaScript JSON runtime value.  Numbers are modelled by integers
(the payloads inspected by the page never depend on fractional values). -/
inductive Json where
  | str (s : Str)
  | num (n : Int)
  | bool (b : Bool)
  | null
  | arr (elems : List Json)
  | obj (fields : List (Str × Json))

/-- JavaScript truthiness of a JSON value. -/
def truthy : Json → Bool
  | .str s => !s.isEmpty
  | .num n => n != 0
  | .bool b => b
  | .null => false
  | .arr _ => true
  | .obj _ => true

/-- Object member lookup (first occurrence of the key). -/
def objGet : List (Str × Json) → Str → Option Json
  | [], _ => none
  | (k, v) :: rest, key => if k = key then some v else objGet rest key

/-- data[field] as the page uses it: a member of an object, undefined on
arrays and primitives (none of the accessed field names is an array
property). -/
def jsField (j : Json) (key : Str) : Option Json :=
  match j with
  | .obj fs => objGet fs key
  | _ => none

/-- A value whose JavaScript typeof is the string object, other than
null: an object or an array. -/
def Json.isObjOrArr : Json → Bool
  | .obj _ => true
  | .arr _ => true
  | _ => false

/-- Whether the runtime value is a string. -/
def Json.isStr : Json → Bool
  | .str _ => true
  | _ => false

/-- Decimal digit character. -/
def digitChar : Nat → Char
  | 0 => '0'
  | 1 => '1'
  | 2 => '2'
  | 3 => '3'
  | 4 => '4'
  | 5 => '5'
  | 6 => '6'
  | 7 => '7'
  | 8 => '8'
  | _ => '9'

/-- Decimal rendering of a natural number (fuel-bounded; fuel = n + 1 is
always sufficient since the argument shrinks by a factor of ten). -/
def natToStrAux : Nat → Nat → Str
  | 0, _ => []
  | fuel+1, n => if n < 10 then [digitChar n] else natToStrAux fuel (n / 10) ++ [digitChar (n % 10)]

/-- Decimal rendering of a natural number, as produced by a JavaScript
template literal on a non-negative number. -/
def natToStr (n : Nat) : Str := natToStrAux (n + 1) n

/-- String(n) for an integer. -/
def intToStr (i : Int) : Str :=
  if i < 0 then '-' :: natToStr i.natAbs else natToStr i.natAbs

/-- n spaces. -/
def spacesN : Nat → Str
  | 0 => []
  | n+1 => ' ' :: spacesN n

def openBrace : Char := Char.ofNat 123

def closeBrace : Char := Char.ofNat 125

/-- JSON.stringify(value, null, 2): two-space-indented rendering.  String
escaping is simplified (no theorem below inspects the rendered text; the
claims only use that the result is a string). -/
def jsonStringifyAt (depth : Nat) (j : Json) : Str :=
  match j with
  | .str s => '"' :: s ++ ['"']
  | .num n => intToStr n
  | .bool b => if b then ("true".data) else ("false".data)
  | .null => ("null".data)
  | .arr [] => ['[', ']']
  | .arr (x :: xs) =>
      '[' :: '\n' ::
        (List.intercalate (',' :: '\n' :: [])
          ((x :: xs).attach.map (fun e => spacesN (2 * (depth + 1)) ++ jsonStringifyAt (depth + 1) e.1)))
      ++ '\n' :: spacesN (2 * depth) ++ [']']
  | .obj [] => [openBrace, closeBrace]
  | .obj (f :: fs) =>
      openBrace :: '\n' ::
        (List.intercalate (',' :: '\n' :: [])
          ((f :: fs).attach.map (fun kv =>
            spacesN (2 * (depth + 1)) ++ '"' :: kv.1.1 ++ '"' :: ':' :: ' ' :: jsonStringifyAt (depth + 1) kv.1.2)))
      ++ '\n' :: spacesN (2 * depth) ++ [closeBrace]
termination_by sizeOf j
decreasing_by
  · have := List.sizeOf_lt_of_mem e.2
    simp only [Json.arr.sizeOf_spec]
    omega
  · have h1 := List.sizeOf_lt_of_mem kv.2
    have h2 : sizeOf kv.1.2 < sizeOf kv.1 := by
      obtain ⟨a, b⟩ := kv.1
      simp only [Prod.mk.sizeOf_spec]
      omega
    simp only [Json.obj.sizeOf_spec]
    omega

def jsonStringify (j : Json) : Str := jsonStringifyAt 0 j

/- ------------------------------------------------------------------ -/
/- extractResponseText                                                 -/
/- ------------------------------------------------------------------ -/

/-- The ordered list of top-level response field names tried by
extractResponseText. -/
def possibleFields : List Str :=
  [("answer".data), ("response".data), ("text".data), ("message".data),
   ("chatOutput".data), ("reply".data), ("content".data)]

/-- The nested check data.output and typeof data.output is object and
data.output.answer: a truthy object-typed output member whose answer
member is truthy yields that answer value (returned as-is, even when it
is not a string). -/
def nestedOutputAnswer (fs : List (Str × Json)) : Option Json :=
  match objGet fs ("output".data) with
  | some o =>
    if truthy o && o.isObjOrArr then
      match jsField o ("answer".data) with
      | some a => if truthy a then some a else none
      | none => none
    else none
  | none => none

/-- The field loop: the first field in the list whose member is a truthy
string (data[field] and typeof data[field] is string). -/
def firstTruthyStringField (fs : List (Str × Json)) : List Str → Option Str
  | [] => none
  | f :: rest =>
    match objGet fs f with
    | some (.str s) => if !s.isEmpty then some s else firstTruthyStringField fs rest
    | _ => firstTruthyStringField fs rest

/-- extractResponseText from the page component, translated branch by
branch: strings are returned; other primitives go through String(data);
for objects the nested output.answer check runs first, then the field
loop, then a truthy string output member; a nonempty array defers to its
first element when that element is a string, an object or an array;
everything else is JSON.stringify of the raw payload. -/
def extractResponseText (data : Json) : Json :=
  match data with
  | .str s => .str s
  | .num n => .str (intToStr n)
  | .bool b => .str (if b then ("true".data) else ("false".data))
  | .null => .str ("null".data)
  | .obj fs =>
    match nestedOutputAnswer fs with
    | some a => a
    | none =>
      match firstTruthyStringField fs possibleFields with
      | some s => .str s
      | none =>
        match objGet fs ("output".data) with
        | some (.str s) =>
            if !s.isEmpty then .str s else .str (jsonStringify (.obj fs))
        | _ => .str (jsonStringify (.obj fs))
  | .arr [] => .str (jsonStringify (.arr []))
  | .arr (x :: xs) =>
    match x with
    | .str s => .str s
    | .obj ofs => extractResponseText (.obj ofs)
    | .arr l => extractResponseText (.arr l)
    | _ => .str (jsonStringify (.arr (x :: xs)))
termination_by sizeOf data
decreasing_by
  all_goals simp only [Json.arr.sizeOf_spec, List.cons.sizeOf_spec]
  all_goals omega

/-- The claim-literal reading of the extraction precedence: output.answer
by presence, then the first field present as a string (empty or not),
then a string output member, then the first array element recursively,
else the stringified payload. -/
def firstPresentStringField (fs : List (Str × Json)) : List Str → Option Str
  | [] => none
  | f :: rest =>
    match objGet fs f with
    | some (.str s) => some s
    | _ => firstPresentStringField fs rest

/-- The extraction procedure exactly as the claim words it (presence-based,
no truthiness): used to compare the stated precedence against the code. -/
def extractSpecLiteral (d : Json) : Json :=
  match d with
  | .str s => .str s
  | .num n => .str (intToStr n)
  | .bool b => .str (if b then ("true".data) else ("false".data))
  | .null => .str ("null".data)
  | .obj fs =>
    match (match objGet fs ("output".data) with
           | some (.obj ofs) => objGet ofs ("answer".data)
           | _ => none) with
    | some a => a
    | none =>
      match firstPresentStringField fs possibleFields with
      | some s => .str s
      | none =>
        match objGet fs ("output".data) with
        | some (.str s) => .str s
        | _ => .str (jsonStringify (.obj fs))
  | .arr [] => .str (jsonStringify (.arr []))
  | .arr (x :: _) => extractSpecLiteral x
termination_by sizeOf d
decreasing_by
  all_goals simp only [Json.arr.sizeOf_spec, List.cons.sizeOf_spec]
  all_goals omega

/-- The first rule of the amended precedence: a truthy object-typed output
member with a truthy answer member, returned raw. -/
def ruleNestedOutputAnswer (d : Json) : Option Json :=
  match jsField d ("output".data) with
  | some o =>
    if truthy o && o.isObjOrArr then
      match jsField o ("answer".data) with
      | some a => if truthy a then some a else none
      | none => none
    else none
  | none => none

/-- The second rule of the amended precedence: the first of the seven
candidate fields holding a nonempty string. -/
def ruleTopLevelFields (d : Json) : Option Json :=
  (possibleFields.filterMap (fun f =>
    match jsField d f with
    | some (.str s) => if !s.isEmpty then some (Json.str s) else none
    | _ => none)).head?

/-- The third rule of the amended precedence: a nonempty string output
member. -/
def ruleStringOutput (d : Json) : Option Json :=
  match jsField d ("output".data) with
  | some (.str s) => if !s.isEmpty then some (.str s) else none
  | _ => none

/-- The first rule of the ordered list that produces a value. -/
def firstSomeJson (l : List (Option Json)) : Option Json :=
  (l.filterMap id).head?

/-- The amended extraction precedence: the three field rules in order
(with truthiness as the presence test), then first-array-element recursion
restricted to string, object or array heads, else the stringified raw
payload; primitives are handled as the code does up front. -/
def extractSpecAmended (d : Json) : Json :=
  match d with
  | .str s => .str s
  | .num n => .str (intToStr n)
  | .bool b => .str (if b then ("true".data) else ("false".data))
  | .null => .str ("null".data)
  | .obj fs =>
    match firstSomeJson
        [ruleNestedOutputAnswer (.obj fs), ruleTopLevelFields (.obj fs), ruleStringOutput (.obj fs)] with
    | some v => v
    | none => .str (jsonStringify (.obj fs))
  | .arr l =>
    match firstSomeJson
        [ruleNestedOutputAnswer (.arr l), ruleTopLevelFields (.arr l), ruleStringOutput (.arr l)] with
    | some v => v
    | none =>
      match l with
      | [] => .str (jsonStringify (.arr []))
      | x :: xs =>
        if x.isStr then x
        else if x.isObjOrArr then extractSpecAmended x
        else .str (jsonStringify (.arr (x :: xs)))
termination_by sizeOf d
decreasing_by
  all_goals simp only [Json.arr.sizeOf_spec, List.cons.sizeOf_spec]
  all_goals omega

/-- Soundness condition for the string-typed result of extraction: along
the chain of first array elements the extraction may follow, a truthy
output.answer member, if reached, is itself a string. -/
def answerOk (d : Json) : Bool :=
  match d with
  | .obj fs =>
    (match objGet fs ("output".data) with
     | some o =>
       if truthy o && o.isObjOrArr then
         (match jsField o ("answer".data) with
          | some a => !truthy a || a.isStr
          | none => true)
       else true
     | none => true)
  | .arr (x :: _) => answerOk x
  | _ => true
termination_by sizeOf d
decreasing_by
  all_goals simp only [Json.arr.sizeOf_spec, List.cons.sizeOf_spec]
  all_goals omega

/-- The payload from the claim: output.answer nested beside a top-level
answer field. -/
def payloadNestedA : Json :=
  Json.obj [(("output".data), Json.obj [(("answer".data), Json.str ("A".data))]),
            (("answer".data), Json.str ("B".data))]

/-- A payload whose answer field is the empty string and whose response
field is a nonempty string: the code skips the empty string, the claim
as stated returns it. -/
def payloadEmptyAnswer : Json :=
  Json.obj [(("answer".data), Json.str []), (("response".data), Json.str ("R".data))]

/-- A payload whose nested output.answer is a truthy non-string: the code
returns the raw number. -/
def payloadNumericAnswer : Json :=
  Json.obj [(("output".data), Json.obj [(("answer".data), Json.num 5)])]

/- ------------------------------------------------------------------ -/
/- localStorage adapter                                                -/
/- ------------------------------------------------------------------ -/

/-- A value held in localStorage.  The JSON serialization layer is
abstracted: a stored string either fails to parse (junk) or parses to a
JSON value; JSON.stringify of a value is modelled as storing that value,
using that parse is a left inverse of stringify on the JSON format. -/
inductive SVal where
  | junk
  | json (j : Json)

/-- The browser localStorage, keyed by the storage-key strings of the
page. -/
abbrev Store := String → Option SVal

def CONVERSATIONS_STORAGE_KEY : String := "boomerang-sidekick-conversations"

def SETTINGS_STORAGE_KEY : String := "boomerang-sidekick-settings"

/-- JSON.parse on a stored value; the error case models the exception the
source catches. -/
def jsonParse : SVal → Except Unit Json
  | .junk => .error ()
  | .json j => .ok j

/-- loadConversationsFromStorage: read the conversations key, parse it,
and return the parsed value only when it is an array; on a missing key,
a parse failure (caught) or a non-array value, return the empty list.
The elements are returned unvalidated, as the source casts the parsed
array without inspecting it. -/
def loadConversationsFromStorage (store : Store) : List Json :=
  match store CONVERSATIONS_STORAGE_KEY with
  | none => []
  | some sv =>
    match jsonParse sv with
    | .error _ => []
    | .ok parsed =>
      match parsed with
      | .arr l => l
      | _ => []

/-- saveConversationsToStorage: overwrite the conversations key with the
serialized list (the try/catch around setItem only guards quota errors,
which leave the store unchanged and are not modelled). -/
def saveConversationsToStorage (conversations : List Json) (store : Store) : Store :=
  fun k => if k = CONVERSATIONS_STORAGE_KEY then some (SVal.json (Json.arr conversations)) else store k

/-- The settings record; darkMode holds the raw JSON value the source
stores (parsed.darkMode || false), which defaults to the boolean false. -/
structure Settings where
  darkMode : Json

/-- Property access parsed.darkMode: throws on null (the error case,
caught by the try block of the source), looks the member up on an object,
and yields undefined (none) on any other value. -/
def jsMember (j : Json) (key : Str) : Except Unit (Option Json) :=
  match j with
  | .null => .error ()
  | .obj fs => .ok (objGet fs key)
  | _ => .ok none

/-- loadSettings: read the settings key; on a missing key, a parse
failure or a thrown member access, return the default; otherwise keep
parsed.darkMode when truthy, else false. -/
def loadSettings (store : Store) : Settings :=
  match store SETTINGS_STORAGE_KEY with
  | none => { darkMode := Json.bool false }
  | some sv =>
    match jsonParse sv with
    | .error _ => { darkMode := Json.bool false }
    | .ok parsed =>
      match jsMember parsed ("darkMode".data) with
      | .error _ => { darkMode := Json.bool false }
      | .ok v =>
        { darkMode :=
            match v with
            | some j => if truthy j then j else Json.bool false
            | none => Json.bool false }

/-- A store holding a one-element conversation array, used as a concrete
witness input. -/
def storeWithOneConversation : Store :=
  fun k => if k = CONVERSATIONS_STORAGE_KEY then some (SVal.json (Json.arr [Json.num 1])) else none

/- ------------------------------------------------------------------ -/
/- Locale resolution (countryDetection.ts and useLanguage.ts)          -/
/- ------------------------------------------------------------------ -/

/-- The countries mapped to Dutch. -/
def DUTCH_COUNTRIES : List Str := [("BE".data), ("NL".data)]

def toUpperStr (s : Str) : Str := s.map Char.toUpper

/-- shouldUseDutch from countryDetection.ts.  The argument is the raw
value detectCountry produced; a falsy value (null or the empty string)
yields false; a string is uppercased and looked up; toUpperCase on a
non-string value throws (error case), which the caller catches. -/
def shouldUseDutch (countryCode : Option Json) : Except Unit Bool :=
  match countryCode with
  | none => .ok false
  | some j =>
    if !(truthy j) then .ok false
    else
      match j with
      | .str s => .ok (decide (toUpperStr s ∈ DUTCH_COUNTRIES))
      | _ => .error ()

/-- One observable outcome of a fetch of the geolocation endpoint: a
rejection (network failure), an abort fired by the five-second timeout
(whose error name is AbortError), or a response with a status and parsed
JSON body. -/
inductive FetchOutcome where
  | netError
  | timeoutAbort
  | resp (status : Nat) (body : Json)

/-- data.country_code or data.country or null from the geolocation
response body. -/
def countryOfBody (body : Json) : Option Json :=
  match jsField body ("country_code".data) with
  | some v =>
    if truthy v then some v
    else
      match jsField body ("country".data) with
      | some w => if truthy w then some w else none
      | none => none
  | none =>
    match jsField body ("country".data) with
    | some w => if truthy w then some w else none
    | none => none

/-- detectCountry from countryDetection.ts: with no API token it resolves
null immediately; otherwise it consumes one fetch outcome per attempt.  A
timeout abort is not retried (its error name is AbortError) and resolves
null; a rejection or a non-2xx status is retried while retries remain,
else resolves null; a 2xx response yields the country field chain.  An
exhausted outcome list stands for a network that never answers and
resolves null. -/
def detectCountry (token : Str) (fetches : List FetchOutcome) (retries : Nat) : Option Json :=
  if token.isEmpty then none
  else
    match fetches with
    | [] => none
    | f :: rest =>
      match f with
      | .timeoutAbort => none
      | .netError => if 0 < retries then detectCountry token rest (retries - 1) else none
      | .resp status body =>
        if 200 ≤ status && status ≤ 299 then countryOfBody body
        else if 0 < retries then detectCountry token rest (retries - 1) else none

/-- The outcome of one run of the useLanguage hook: the resolved language,
whether the geolocation lookup ran, and the stored language choice
afterwards. -/
structure LangResult where
  language : Str
  geoInvoked : Bool
  storedAfter : Option Str
deriving DecidableEq

/-- useLanguage from useLanguage.ts: a stored choice of en or nl is
returned without invoking detection; otherwise detectCountry runs (with
its two retries), its result is mapped through shouldUseDutch, the
resolved language is stored, and a thrown error inside the handler falls
to the catch, which resolves English and stores nothing. -/
def resolveLanguage (stored : Option Str) (token : Str) (fetches : List FetchOutcome) :
    LangResult :=
  if stored = some ("en".data) || stored = some ("nl".data) then
    { language := stored.getD [], geoInvoked := false, storedAfter := stored }
  else
    match shouldUseDutch (detectCountry token fetches 2) with
    | .ok b =>
      let lang := if b then ("nl".data) else ("en".data)
      { language := lang, geoInvoked := true, storedAfter := some lang }
    | .error _ => { language := ("en".data), geoInvoked := true, storedAfter := stored }

/- ------------------------------------------------------------------ -/
/- Error categorization of the primary send (handleSend catch block)   -/
/- ------------------------------------------------------------------ -/

/-- The user-visible failure categories; each maps to a fixed distinct
translation string (networkError, webhookNotFound, authError, serverError,
serverErrorWithCode, errorSendingMessage). -/
inductive ErrMsgKind where
  | generic
  | network
  | notFound
  | auth
  | server
  | serverWithCode (code : Str)
deriving DecidableEq

/-- message.includes(pat): substring containment. -/
def containsSub (l pat : Str) : Bool :=
  match l with
  | [] => pat.isEmpty
  | _ :: rest => pat.isPrefixOf l || containsSub rest pat

/-- message.match(/HTTP (\d+)/): scan left to right for the literal
HTTP-space prefix followed by at least one digit; the capture is the
maximal digit run; otherwise resume scanning one position later. -/
def matchHTTPNum : Str → Option Str
  | 'H' :: rest4@('T' :: 'T' :: 'P' :: ' ' :: rest) =>
      let digits := rest.takeWhile Char.isDigit
      if digits.isEmpty then matchHTTPNum rest4 else some digits
  | _ :: cs => matchHTTPNum cs
  | [] => none

/-- The catch block of handleSend: network markers first, then the HTTP
status match with its specific codes, then the generic fallbacks. -/
def classifyError (message : Str) : ErrMsgKind :=
  if containsSub message ("Failed to fetch".data) || containsSub message ("NetworkError".data) then
    .network
  else if containsSub message ("HTTP".data) then
    match matchHTTPNum message with
    | some code =>
      if code = ("404".data) then .notFound
      else if code = ("401".data) || code = ("403".data) then .auth
      else if code = ("500".data) then .server
      else .serverWithCode code
    | none => .server
  else .generic

/-- The message of the error handleSend throws on a non-2xx response:
HTTP status, colon, then the response body text (or statusText when the
body is empty; the argument is that resolved text). -/
def buildHTTPErrorMessage (status : Nat) (bodyText : Str) : Str :=
  ("HTTP ".data) ++ natToStr status ++ ':' :: ' ' :: bodyText

/-- The message of a browser fetch rejection on a network failure. -/
def fetchNetworkFailureMessage : Str := ("Failed to fetch".data)

/-- The two observable failures of the primary send: the fetch promise
rejects, or a response arrives with a non-2xx status and its error text
is read. -/
inductive SendOutcome where
  | rejected (message : Str)
  | httpError (status : Nat) (bodyText : Str)

/-- The chat message category appended for a failed send. -/
def sendErrorMessage : SendOutcome → ErrMsgKind
  | .rejected msg => classifyError msg
  | .httpError s body => classifyError (buildHTTPErrorMessage s body)

/-- The built message carries neither of the two network markers the
catch block looks for first. -/
def noNetMarker (m : Str) : Prop :=
  (containsSub m ("Failed to fetch".data) || containsSub m ("NetworkError".data)) = false

/- ------------------------------------------------------------------ -/
/- Conversation state management (handleSend resolution, bulk delete)  -/
/- ------------------------------------------------------------------ -/

/-- A chat message as the page stores it. -/
structure Message where
  role : Str
  content : Str
  timestamp : Option Nat
  id : Option Str
deriving DecidableEq

/-- A conversation record as the page stores it. -/
structure Conversation where
  id : Str
  title : Str
  timestamp : Nat
  messages : List Message
  sessionId : Str
  pinned : Option Bool
  archived : Option Bool
deriving DecidableEq

/-- generateConversationTitleFallback: the trimmed content of the first
user message, cut to 50 characters with an ellipsis when longer, or the
new-conversation label when no user message exists. -/
def generateConversationTitleFallback (newConversationLabel : Str)
    (messages : List Message) : Str :=
  match messages.find? (fun m => m.role = ("user".data)) with
  | some m =>
    let title := jsTrim m.content
    if 50 < title.length then title.take 50 ++ ellipsis else title
  | none => newConversationLabel

/-- Lookup of a conversation by id (conversations.find of the source). -/
def getConv (convs : List Conversation) (i : Str) : Option Conversation :=
  convs.find? (fun c => c.id = i)

/-- A resolving send, with everything handleSend captured at send time:
the request conversation id, the request session id, the messages as of
the send (user message included), and the message produced by the
resolution — the assistant reply on success, the synthesized error
message on failure. -/
inductive Resolution where
  | success (cid : Str) (sid : Str) (captured : List Message) (reply : Message)
  | failure (cid : Str) (sid : Str) (captured : List Message) (errMsg : Message)

def Resolution.cid : Resolution → Str
  | .success c _ _ _ => c
  | .failure c _ _ _ => c

def Resolution.sid : Resolution → Str
  | .success _ s _ _ => s
  | .failure _ s _ _ => s

def Resolution.captured : Resolution → List Message
  | .success _ _ m _ => m
  | .failure _ _ m _ => m

def Resolution.resMsg : Resolution → Message
  | .success _ _ _ m => m
  | .failure _ _ _ m => m

/-- The setConversations updater handleSend runs when the webhook call
resolves, translated from the success branch (overwrite the request
conversation with the captured messages plus the reply; re-create it when
absent) and from the catch branch (append the error message to the
current messages of the request conversation; re-create it from the
captured messages when absent).  The label is the translated
new-conversation fallback title, now the clock reading used for a
re-created record. -/
def applyResolution (label : Str) (now : Nat) (r : Resolution)
    (convs : List Conversation) : List Conversation :=
  match r with
  | .success cid sid captured reply =>
    let finalMessages := captured ++ [reply]
    let updated := convs.map (fun c =>
      if c.id = cid then { c with messages := finalMessages } else c)
    match convs.find? (fun c => c.id = cid) with
    | some _ => updated
    | none =>
      updated ++ [{ id := cid,
                    title := generateConversationTitleFallback label finalMessages,
                    timestamp := now, messages := finalMessages, sessionId := sid,
                    pinned := none, archived := none }]
  | .failure cid sid captured errMsg =>
    match convs.find? (fun c => c.id = cid) with
    | some conv =>
      convs.map (fun c =>
        if c.id = cid then { c with messages := conv.messages ++ [errMsg] } else c)
    | none =>
      let finalMessages := captured ++ [errMsg]
      (convs.map (fun c =>
        if c.id = cid then { c with messages := finalMessages } else c)) ++
        [{ id := cid,
           title := generateConversationTitleFallback label finalMessages,
           timestamp := now, messages := finalMessages, sessionId := sid,
           pinned := none, archived := none }]

/-- The record the resolution leaves under the request id, as a function
of the record previously under that id. -/
def resolvedConvAt (label : Str) (now : Nat) (r : Resolution)
    (prev : Option Conversation) : Conversation :=
  match r, prev with
  | .success _ _ captured reply, some c => { c with messages := captured ++ [reply] }
  | .success cid sid captured reply, none =>
    { id := cid, title := generateConversationTitleFallback label (captured ++ [reply]),
      timestamp := now, messages := captured ++ [reply], sessionId := sid,
      pinned := none, archived := none }
  | .failure _ _ _ errMsg, some c => { c with messages := c.messages ++ [errMsg] }
  | .failure cid sid captured errMsg, none =>
    { id := cid, title := generateConversationTitleFallback label (captured ++ [errMsg]),
      timestamp := now, messages := captured ++ [errMsg], sessionId := sid,
      pinned := none, archived := none }

/-- The React state handleSend touches when a send resolves: the
conversation list, the currently active conversation id (read through
currentConversationIdRef at resolution time), and the displayed message
list. -/
structure UIState where
  conversations : List Conversation
  activeId : Option Str
  viewMessages : List Message

/-- The full resolution step: the conversation-list update of
applyResolution, plus setMessages exactly when the request conversation
is the active one at resolution time. -/
def applyResolutionUI (label : Str) (now : Nat) (r : Resolution) (st : UIState) : UIState :=
  let displayed :=
    match r, getConv st.conversations r.cid with
    | .success _ _ captured reply, _ => captured ++ [reply]
    | .failure _ _ _ errMsg, some c => c.messages ++ [errMsg]
    | .failure _ _ captured errMsg, none => captured ++ [errMsg]
  { conversations := applyResolution label now r st.conversations,
    activeId := st.activeId,
    viewMessages := if st.activeId = some r.cid then displayed else st.viewMessages }

/-- The state handleBulkDelete touches: the in-memory conversation list,
the persisted one, and the active conversation id. -/
structure BulkState where
  conversations : List Conversation
  stored : List Conversation
  currentConversationId : Option Str

/-- The record handleNewConversation builds: a fresh id and session id,
the seed assistant message, the fallback title (the new-conversation
label, as the seed list has no user message), and the clock reading. -/
def freshConversation (newId newSessionId : Str) (now : Nat) (label : Str)
    (initialMessage : Message) : Conversation :=
  { id := newId,
    title := generateConversationTitleFallback label [initialMessage],
    timestamp := now, messages := [initialMessage], sessionId := newSessionId,
    pinned := none, archived := none }

/-- handleBulkDelete (confirmed): with nothing selected it returns after a
toast; otherwise it filters the selected ids out of the conversation list
and persists the filtered list, then — when the active conversation was
among the deleted — switches to the first remaining unarchived
conversation, or, when none remains, runs handleNewConversation, which
reads the just-persisted list, appends the fresh record to it, persists
it again and makes the fresh conversation active. -/
def handleBulkDelete (selectedConversationIds : List Str) (newId newSessionId : Str)
    (now : Nat) (label : Str) (initialMessage : Message) (st : BulkState) : BulkState :=
  if selectedConversationIds.isEmpty then st
  else
    let updatedConversations :=
      st.conversations.filter (fun c => !(selectedConversationIds.contains c.id))
    match st.currentConversationId with
    | some cur =>
      if selectedConversationIds.contains cur then
        let remaining := updatedConversations.filter (fun c => !(c.archived.getD false))
        match remaining with
        | r :: _ =>
          { conversations := updatedConversations, stored := updatedConversations,
            currentConversationId := some r.id }
        | [] =>
          let fresh := freshConversation newId newSessionId now label initialMessage
          { conversations := updatedConversations ++ [fresh],
            stored := updatedConversations ++ [fresh],
            currentConversationId := some fresh.id }
      else
        { conversations := updatedConversations, stored := updatedConversations,
          currentConversationId := some cur }
    | none =>
      { conversations := updatedConversations, stored := updatedConversations,
        currentConversationId := none }

/- ------------------------------------------------------------------ -/
/- Theorems                                                            -/
/- ------------------------------------------------------------------ -/

/-- On an object, the first amended rule coincides with the nested check
of the source. -/
theorem ruleNestedOutputAnswer_obj (fs : List (Str × Json)) :
    ruleNestedOutputAnswer (Json.obj fs) = nestedOutputAnswer fs := rfl

/-- On an array, the nested-output rule yields nothing. -/
theorem ruleNestedOutputAnswer_arr (l : List Json) :
    ruleNestedOutputAnswer (Json.arr l) = none := rfl

/-- On an object, the field rule computes the same answer as the field
loop of the source. -/
theorem ruleTopLevelFields_eq_firstTruthy (fs : List (Str × Json)) (fields : List Str) :
    ((fields.filterMap (fun f =>
      match jsField (Json.obj fs) f with
      | some (.str s) => if !s.isEmpty then some (Json.str s) else none
      | _ => none)).head?) = (firstTruthyStringField fs fields).map Json.str := by
  induction fields with
  | nil => rfl
  | cons f rest ih =>
    simp only [List.filterMap_cons, firstTruthyStringField, jsField]
    cases h : objGet fs f with
    | none => simpa [h] using ih
    | some v =>
      cases v with
      | str s =>
        by_cases hs : s.isEmpty
        · simpa [hs] using ih
        · simp [hs]
      | num n => simpa using ih
      | bool b => simpa using ih
      | null => simpa using ih
      | arr l => simpa using ih
      | obj o => simpa using ih

theorem ruleTopLevelFields_obj (fs : List (Str × Json)) :
    ruleTopLevelFields (Json.obj fs) = (firstTruthyStringField fs possibleFields).map Json.str := by
  simpa [ruleTopLevelFields] using ruleTopLevelFields_eq_firstTruthy fs possibleFields

/-- On an array, the field rule yields nothing. -/
theorem ruleTopLevelFields_arr (l : List Json) :
    ruleTopLevelFields (Json.arr l) = none := rfl

/-- On an array, the string-output rule yields nothing. -/
theorem ruleStringOutput_arr (l : List Json) :
    ruleStringOutput (Json.arr l) = none := rfl

/-- If the nested check of the source succeeds, answerOk records exactly
whether the produced answer is a string. -/
theorem answerOk_of_nested_some (fs : List (Str × Json)) (a : Json)
    (h : nestedOutputAnswer fs = some a) :
    answerOk (Json.obj fs) = a.isStr := by
  rw [answerOk]
  unfold nestedOutputAnswer at h
  split at h
  next o hout =>
    split at h
    next hcond =>
      split at h
      next a2 hans =>
        split at h
        next hta =>
          cases h
          simp [hout, hcond, hans, hta]
        next hta => simp at h
      next hans => simp at h
    next hcond => simp at h
  next hout => simp at h

/-- Claim C3 counterexample: on the payload with an empty-string answer
field and a nonempty response field, the code returns the response text
while the precedence exactly as the claim states it (first present string
among the fields, empty or not) returns the empty string. -/
theorem extractResponseText_C3_counterexample :
    extractResponseText payloadEmptyAnswer = Json.str ("R".data) ∧
    extractSpecLiteral payloadEmptyAnswer = Json.str [] ∧
    ("R".data : Str) ≠ [] := by
  refine ⟨?_, ?_, by decide⟩
  · rw [payloadEmptyAnswer, extractResponseText]
    simp [nestedOutputAnswer, firstTruthyStringField, possibleFields, objGet]
  · rw [payloadEmptyAnswer, extractSpecLiteral]
    simp [firstPresentStringField, possibleFields, objGet]

/-- Claim C3 (amended): extractResponseText follows the stated precedence
with truthiness as the presence test — nested output.answer applies when
output is a truthy object-typed value with a truthy answer (returned raw);
a top-level field counts only when it is a nonempty string; output counts
when a nonempty string; the first array element is used when it is a
string, and recursed into when it is an object or array; everything else
is the stringified raw payload.  On the payload of the claim the nested
answer wins. -/
theorem extractResponseText_C3_amended :
    (∀ d, extractResponseText d = extractSpecAmended d) ∧
    extractResponseText payloadNestedA = Json.str ("A".data) := by
  have main : ∀ d, extractResponseText d = extractSpecAmended d := by
    intro d
    induction d using extractResponseText.induct with
    | case1 s => simp [extractResponseText, extractSpecAmended]
    | case2 n => simp [extractResponseText, extractSpecAmended]
    | case3 b => simp [extractResponseText, extractSpecAmended]
    | case4 => simp [extractResponseText, extractSpecAmended]
    | case5 fs a h =>
      rw [extractResponseText, extractSpecAmended, h]
      simp [firstSomeJson, ruleNestedOutputAnswer_obj, h]
    | case6 fs h1 s h2 =>
      rw [extractResponseText, extractSpecAmended, h1, h2]
      simp [firstSomeJson, ruleNestedOutputAnswer_obj, ruleTopLevelFields_obj, h1, h2]
    | case7 fs h1 h2 s h3 h4 =>
      rw [extractResponseText, extractSpecAmended, h1, h2, h3]
      simp [firstSomeJson, ruleNestedOutputAnswer_obj, ruleTopLevelFields_obj,
            ruleStringOutput, jsField, h1, h2, h3, h4]
    | case8 fs h1 h2 s h3 h4 =>
      rw [extractResponseText, extractSpecAmended, h1, h2, h3]
      simp only [Bool.not_eq_true] at h4
      simp [firstSomeJson, ruleNestedOutputAnswer_obj, ruleTopLevelFields_obj,
            ruleStringOutput, jsField, h1, h2, h3, h4]
    | case9 fs h1 h2 h3 =>
      rw [extractResponseText, extractSpecAmended, h1, h2]
      have hout : ruleStringOutput (Json.obj fs) = none := by
        rw [ruleStringOutput]
        cases hog : jsField (Json.obj fs) ("output".data) with
        | none => rfl
        | some v =>
          cases v with
          | str s => exact absurd hog (fun hh => h3 s hh)
          | num n => rfl
          | bool b => rfl
          | null => rfl
          | arr l => rfl
          | obj o => rfl
      have hcatch : (match objGet fs ("output".data) with
          | some (.str s) => if !s.isEmpty then Json.str s else Json.str (jsonStringify (.obj fs))
          | _ => Json.str (jsonStringify (.obj fs))) = Json.str (jsonStringify (.obj fs)) := by
        cases hog : objGet fs ("output".data) with
        | none => rfl
        | some v =>
          cases v with
          | str s => exact absurd hog (fun hh => h3 s hh)
          | num n => rfl
          | bool b => rfl
          | null => rfl
          | arr l => rfl
          | obj o => rfl
      rw [hcatch]
      simp [firstSomeJson, ruleNestedOutputAnswer_obj, ruleTopLevelFields_obj, hout, h1, h2]
    | case10 => simp [extractResponseText, extractSpecAmended, firstSomeJson,
        ruleNestedOutputAnswer_arr, ruleTopLevelFields_arr, ruleStringOutput_arr]
    | case11 xs s =>
      rw [extractResponseText, extractSpecAmended]
      simp [firstSomeJson, ruleNestedOutputAnswer_arr, ruleTopLevelFields_arr,
            ruleStringOutput_arr, Json.isStr]
    | case12 xs ofs ih =>
      rw [extractResponseText, extractSpecAmended, ih]
      simp [firstSomeJson, ruleNestedOutputAnswer_arr, ruleTopLevelFields_arr,
            ruleStringOutput_arr, Json.isStr, Json.isObjOrArr]
    | case13 xs l ih =>
      rw [extractResponseText, extractSpecAmended, ih]
      simp [firstSomeJson, ruleNestedOutputAnswer_arr, ruleTopLevelFields_arr,
            ruleStringOutput_arr, Json.isStr, Json.isObjOrArr]
    | case14 x xs hstr hobj harr =>
      cases x with
      | str s => exact absurd rfl (hstr s)
      | obj o => exact absurd rfl (hobj o)
      | arr l => exact absurd rfl (harr l)
      | num n =>
        simp [extractResponseText, extractSpecAmended, firstSomeJson,
              ruleNestedOutputAnswer_arr, ruleTopLevelFields_arr,
              ruleStringOutput_arr, Json.isStr, Json.isObjOrArr]
      | bool b =>
        simp [extractResponseText, extractSpecAmended, firstSomeJson,
              ruleNestedOutputAnswer_arr, ruleTopLevelFields_arr,
              ruleStringOutput_arr, Json.isStr, Json.isObjOrArr]
      | null =>
        simp [extractResponseText, extractSpecAmended, firstSomeJson,
              ruleNestedOutputAnswer_arr, ruleTopLevelFields_arr,
              ruleStringOutput_arr, Json.isStr, Json.isObjOrArr]
  refine ⟨main, ?_⟩
  rw [payloadNestedA, extractResponseText]
  simp [nestedOutputAnswer, objGet, truthy, Json.isObjOrArr, jsField]

/-- Claim C10 counterexample: on the payload whose nested output.answer is
the number five, extractResponseText returns that raw number, not a
string. -/
theorem extractResponseText_C10_counterexample :
    (extractResponseText payloadNumericAnswer).isStr = false := by
  rw [payloadNumericAnswer, extractResponseText]
  simp [nestedOutputAnswer, objGet, truthy, Json.isObjOrArr, jsField, Json.isStr]

/-- Claim C10 (amended): extractResponseText is total, and returns a
string for every input along whose first-element chain a truthy nested
output.answer member, when reached, is itself a string; otherwise the raw
answer value is returned unchanged. -/
theorem extractResponseText_C10_amended (d : Json) (hok : answerOk d = true) :
    (extractResponseText d).isStr = true := by
  induction d using extractResponseText.induct with
  | case1 s => simp [extractResponseText, Json.isStr]
  | case2 n => simp [extractResponseText, Json.isStr]
  | case3 b => simp [extractResponseText, Json.isStr]
  | case4 => simp [extractResponseText, Json.isStr]
  | case5 fs a h =>
    rw [answerOk_of_nested_some fs a h] at hok
    rw [extractResponseText, h]
    exact hok
  | case6 fs h1 s h2 => rw [extractResponseText, h1, h2]; rfl
  | case7 fs h1 h2 s h3 h4 =>
    rw [extractResponseText, h1, h2, h3]
    simp [h4, Json.isStr]
  | case8 fs h1 h2 s h3 h4 =>
    rw [extractResponseText, h1, h2, h3]
    simp [h4, Json.isStr]
  | case9 fs h1 h2 h3 =>
    rw [extractResponseText, h1, h2]
    cases hog : objGet fs ("output".data) with
    | none => rfl
    | some v =>
      cases v with
      | str s => exact absurd hog (fun hh => h3 s hh)
      | num n => rfl
      | bool b => rfl
      | null => rfl
      | arr l => rfl
      | obj o => rfl
  | case10 => simp [extractResponseText, Json.isStr]
  | case11 xs s => simp [extractResponseText, Json.isStr]
  | case12 xs ofs ih =>
    rw [extractResponseText]
    exact ih (by simpa [answerOk] using hok)
  | case13 xs l ih =>
    rw [extractResponseText]
    exact ih (by simpa [answerOk] using hok)
  | case14 x xs hstr hobj harr =>
    cases x with
    | str s => exact absurd rfl (hstr s)
    | obj o => exact absurd rfl (hobj o)
    | arr l => exact absurd rfl (harr l)
    | num n => simp [extractResponseText, Json.isStr]
    | bool b => simp [extractResponseText, Json.isStr]
    | null => simp [extractResponseText, Json.isStr]

/-- Claim C10 amended witness: the nested-answer payload of the claim
satisfies the side condition and extraction returns a string on it. -/
theorem extractResponseText_C10_amended_witness :
    answerOk payloadNestedA = true ∧ (extractResponseText payloadNestedA).isStr = true := by
  have hok : answerOk payloadNestedA = true := by
    rw [payloadNestedA, answerOk]
    simp [objGet, truthy, Json.isObjOrArr, jsField, Json.isStr]
  exact ⟨hok, extractResponseText_C10_amended payloadNestedA hok⟩

/-- Claim C4 counterexample: a title of 7 words whose truncation has 62
characters, exceeding the 60-character bound stated in the claim. -/
theorem truncateTitle_C4_counterexample :
    6 < (jsSplitWs (jsTrim longTitle)).length ∧
    60 < (truncateTitle longTitle 6).length := by
  constructor
  · decide
  · decide

/-- Claim C4 (amended): a title of at most 6 whitespace-separated words is
returned unchanged; a longer title is truncated to at most 63 characters
(60 when the 6-word prefix itself exceeds 60 characters) ending in an
ellipsis. -/
theorem truncateTitle_C4_amended (t : Str) :
    ((jsSplitWs (jsTrim t)).length ≤ 6 → truncateTitle t 6 = t) ∧
    (6 < (jsSplitWs (jsTrim t)).length →
      (truncateTitle t 6).length ≤ 63 ∧
      ∃ pre, truncateTitle t 6 = pre ++ ellipsis) := by
  unfold truncateTitle
  constructor
  · intro h
    rw [if_pos h]
  · intro h
    rw [if_neg (by omega)]
    dsimp only
    constructor
    · split
      · next hlen =>
          simp only [List.length_append, List.length_take]
          have : ellipsis.length = 3 := by decide
          omega
      · next hlen =>
          simp only [List.length_append]
          have : ellipsis.length = 3 := by decide
          omega
    · split
      · exact ⟨_, rfl⟩
      · exact ⟨_, rfl⟩

/-- Claim C4 amended witness at concrete inputs: a two-word title is
unchanged and the 7-word title truncates to at most 63 characters with a
trailing ellipsis. -/
theorem truncateTitle_C4_amended_witness :
    truncateTitle ("hello world".data) 6 = ("hello world".data) ∧
    ((truncateTitle longTitle 6).length ≤ 63 ∧
      ∃ pre, truncateTitle longTitle 6 = pre ++ ellipsis) :=
  ⟨(truncateTitle_C4_amended ("hello world".data)).1 (by decide),
   (truncateTitle_C4_amended longTitle).2 (by decide)⟩

/-- Claim C5: when the conversations key holds a well-formed JSON array
and nothing else mutates the store, saving the loaded list leaves storage
such that a subsequent load returns the same conversation list. -/
theorem saveLoad_C5_roundtrip (store : Store) (l : List Json)
    (h : store CONVERSATIONS_STORAGE_KEY = some (SVal.json (Json.arr l))) :
    loadConversationsFromStorage
        (saveConversationsToStorage (loadConversationsFromStorage store) store) =
      loadConversationsFromStorage store := by
  simp [loadConversationsFromStorage, saveConversationsToStorage, jsonParse, h]

/-- Claim C5 witness: the round trip on a concrete store holding a
one-element array. -/
theorem saveLoad_C5_roundtrip_witness :
    storeWithOneConversation CONVERSATIONS_STORAGE_KEY =
      some (SVal.json (Json.arr [Json.num 1])) ∧
    loadConversationsFromStorage
        (saveConversationsToStorage (loadConversationsFromStorage storeWithOneConversation)
          storeWithOneConversation) =
      loadConversationsFromStorage storeWithOneConversation :=
  ⟨by simp [storeWithOneConversation],
   saveLoad_C5_roundtrip storeWithOneConversation [Json.num 1]
     (by simp [storeWithOneConversation])⟩

/-- Claim C7: loading conversations returns the empty list when the
stored value is absent, fails to parse, or parses to a non-array, and
loading settings returns the darkMode-false default when the stored value
is absent or malformed; all these loads are total functions (the parse
and member-access exceptions are consumed inside them, so nothing
propagates to the caller). -/
theorem load_C7_graceful_degradation (store : Store) :
    (store CONVERSATIONS_STORAGE_KEY = none → loadConversationsFromStorage store = []) ∧
    (store CONVERSATIONS_STORAGE_KEY = some SVal.junk → loadConversationsFromStorage store = []) ∧
    (∀ j, store CONVERSATIONS_STORAGE_KEY = some (SVal.json j) → (∀ l, j ≠ Json.arr l) →
      loadConversationsFromStorage store = []) ∧
    (store SETTINGS_STORAGE_KEY = none → loadSettings store = { darkMode := Json.bool false }) ∧
    (store SETTINGS_STORAGE_KEY = some SVal.junk →
      loadSettings store = { darkMode := Json.bool false }) ∧
    (store SETTINGS_STORAGE_KEY = some (SVal.json Json.null) →
      loadSettings store = { darkMode := Json.bool false }) := by
  refine ⟨?_, ?_, ?_, ?_, ?_, ?_⟩
  · intro h; simp [loadConversationsFromStorage, h]
  · intro h; simp [loadConversationsFromStorage, h, jsonParse]
  · intro j h hj
    simp only [loadConversationsFromStorage, h, jsonParse]
  · intro h; simp [loadSettings, h]
  · intro h; simp [loadSettings, h, jsonParse]
  · intro h; simp [loadSettings, h, jsonParse, jsMember]

/-- Claim C7 witness: the degradation cases evaluated on concrete stores:
the empty store, a store with junk under both keys, and a store holding a
non-array conversations value and a null settings value. -/
theorem load_C7_graceful_degradation_witness :
    loadConversationsFromStorage (fun _ => none) = [] ∧
    loadConversationsFromStorage (fun _ => some SVal.junk) = [] ∧
    loadConversationsFromStorage (fun _ => some (SVal.json (Json.num 7))) = [] ∧
    loadSettings (fun _ => none) = { darkMode := Json.bool false } ∧
    loadSettings (fun _ => some SVal.junk) = { darkMode := Json.bool false } ∧
    loadSettings (fun _ => some (SVal.json Json.null)) = { darkMode := Json.bool false } :=
  ⟨(load_C7_graceful_degradation (fun _ => none)).1 rfl,
   (load_C7_graceful_degradation (fun _ => some SVal.junk)).2.1 rfl,
   (load_C7_graceful_degradation (fun _ => some (SVal.json (Json.num 7)))).2.2.1
     (Json.num 7) rfl (by intro l hl; cases hl),
   (load_C7_graceful_degradation (fun _ => none)).2.2.2.1 rfl,
   (load_C7_graceful_degradation (fun _ => some SVal.junk)).2.2.2.2.1 rfl,
   (load_C7_graceful_degradation (fun _ => some (SVal.json Json.null))).2.2.2.2.2 rfl⟩

/-- Claim C6: with a stored choice of nl the geolocation lookup is never
invoked and nl is resolved; with no stored choice and a lookup resolving
BE the language is nl; with no stored choice and a failed lookup the
language is en — where the lookup fails (resolves null) on a missing
credential, on a timeout abort, and on HTTP-error retry exhaustion. -/
theorem resolveLanguage_C6 :
    (∀ token fetches, resolveLanguage (some ("nl".data)) token fetches =
      { language := ("nl".data), geoInvoked := false, storedAfter := some ("nl".data) }) ∧
    (∀ token fetches, detectCountry token fetches 2 = some (Json.str ("BE".data)) →
      (resolveLanguage none token fetches).language = ("nl".data)) ∧
    (∀ token fetches, detectCountry token fetches 2 = none →
      (resolveLanguage none token fetches).language = ("en".data)) ∧
    (∀ fetches, detectCountry [] fetches 2 = none) ∧
    (∀ token rest, detectCountry token (FetchOutcome.timeoutAbort :: rest) 2 = none) ∧
    (∀ token s1 s2 s3 b1 b2 b3,
      ((200 ≤ s1 && s1 ≤ 299) = false) → ((200 ≤ s2 && s2 ≤ 299) = false) →
      ((200 ≤ s3 && s3 ≤ 299) = false) →
      detectCountry token
        [FetchOutcome.resp s1 b1, FetchOutcome.resp s2 b2, FetchOutcome.resp s3 b3] 2 =
        none) := by
  refine ⟨?_, ?_, ?_, ?_, ?_, ?_⟩
  · intro token fetches
    unfold resolveLanguage
    rw [if_pos (by decide)]
    rfl
  · intro token fetches hdetect
    unfold resolveLanguage
    rw [if_neg (by decide), hdetect]
    rfl
  · intro token fetches hdetect
    unfold resolveLanguage
    rw [if_neg (by decide), hdetect]
    rfl
  · intro fetches
    unfold detectCountry
    rw [if_pos (by decide)]
  · intro token rest
    unfold detectCountry
    by_cases htok : token.isEmpty = true
    · rw [if_pos htok]
    · rw [if_neg htok]
  · intro token s1 s2 s3 b1 b2 b3 h1 h2 h3
    by_cases htok : token.isEmpty = true
    · unfold detectCountry
      rw [if_pos htok]
    · unfold detectCountry
      rw [if_neg htok]
      dsimp only
      rw [h1]
      unfold detectCountry
      rw [if_neg htok]
      dsimp only
      rw [h2]
      unfold detectCountry
      rw [if_neg htok]
      dsimp only
      rw [h3]
      simp

/-- Claim C6 witness: the three resolution scenarios at concrete inputs:
a stored nl choice, a successful BE lookup, and a missing credential, a
timeout and three server errors. -/
theorem resolveLanguage_C6_witness :
    resolveLanguage (some ("nl".data)) ("tok".data) [] =
      { language := ("nl".data), geoInvoked := false, storedAfter := some ("nl".data) } ∧
    (resolveLanguage none ("tok".data)
      [FetchOutcome.resp 200 (Json.obj [(("country_code".data), Json.str ("BE".data))])]).language =
      ("nl".data) ∧
    (resolveLanguage none [] []).language = ("en".data) ∧
    (resolveLanguage none ("tok".data) [FetchOutcome.timeoutAbort]).language = ("en".data) ∧
    (resolveLanguage none ("tok".data)
      [FetchOutcome.resp 500 Json.null, FetchOutcome.resp 500 Json.null,
       FetchOutcome.resp 500 Json.null]).language = ("en".data) := by
  refine ⟨resolveLanguage_C6.1 ("tok".data) [], ?_, ?_, ?_, ?_⟩
  · exact resolveLanguage_C6.2.1 ("tok".data) _ rfl
  · exact resolveLanguage_C6.2.2.1 [] [] (resolveLanguage_C6.2.2.2.1 [])
  · exact resolveLanguage_C6.2.2.1 ("tok".data) _
      (resolveLanguage_C6.2.2.2.2.1 ("tok".data) [])
  · exact resolveLanguage_C6.2.2.1 ("tok".data) _
      (resolveLanguage_C6.2.2.2.2.2 ("tok".data) 500 500 500 Json.null Json.null Json.null
        rfl rfl rfl)

/-- Every character produced by digitChar is a decimal digit. -/
theorem digitChar_isDigit (n : Nat) : (digitChar n).isDigit = true := by
  unfold digitChar
  split <;> decide

/-- Every character of the decimal rendering is a digit. -/
theorem natToStrAux_digits : ∀ fuel n c, c ∈ natToStrAux fuel n → c.isDigit = true := by
  intro fuel
  induction fuel with
  | zero => intro n c hc; simp [natToStrAux] at hc
  | succ f ih =>
    intro n c hc
    rw [natToStrAux] at hc
    split at hc
    · simp only [List.mem_singleton] at hc
      subst hc
      exact digitChar_isDigit n
    · rw [List.mem_append] at hc
      cases hc with
      | inl hmem => exact ih (n / 10) c hmem
      | inr hone =>
        simp only [List.mem_singleton] at hone
        subst hone
        exact digitChar_isDigit (n % 10)

theorem natToStr_digits (s : Nat) : ∀ c ∈ natToStr s, c.isDigit = true :=
  fun c hc => natToStrAux_digits (s + 1) s c hc

/-- The decimal rendering is never empty. -/
theorem natToStrAux_ne_nil (fuel n : Nat) : natToStrAux (fuel + 1) n ≠ [] := by
  rw [natToStrAux]
  split
  · simp
  · simp

theorem natToStr_ne_nil (s : Nat) : natToStr s ≠ [] := natToStrAux_ne_nil s s

/-- takeWhile collects a block that satisfies the predicate up to the
first failing character. -/
theorem takeWhile_append_of_all (p : Char → Bool) (xs : Str)
    (hx : ∀ c ∈ xs, p c = true) (y : Char) (hy : p y = false) (ys : Str) :
    (xs ++ y :: ys).takeWhile p = xs := by
  induction xs with
  | nil => simp [List.takeWhile_cons, hy]
  | cons a t ih =>
    have ha : p a = true := hx a (by simp)
    simp only [List.cons_append, List.takeWhile_cons, ha, if_true]
    rw [ih (fun c hc => hx c (by simp [hc]))]

/-- The status regex applied to the thrown message captures exactly the
decimal status. -/
theorem matchHTTPNum_build (s : Nat) (body : Str) :
    matchHTTPNum (buildHTTPErrorMessage s body) = some (natToStr s) := by
  have hform : buildHTTPErrorMessage s body =
      'H' :: 'T' :: 'T' :: 'P' :: ' ' :: (natToStr s ++ ':' :: ' ' :: body) := rfl
  rw [hform, matchHTTPNum]
  have htake : (natToStr s ++ ':' :: ' ' :: body).takeWhile Char.isDigit = natToStr s :=
    takeWhile_append_of_all Char.isDigit (natToStr s) (natToStr_digits s) ':' (by decide)
      (' ' :: body)
  simp only [htake]
  rw [if_neg (by simp [List.isEmpty_iff, natToStr_ne_nil s])]

/-- The thrown message always contains the HTTP marker. -/
theorem containsSub_build_HTTP (s : Nat) (body : Str) :
    containsSub (buildHTTPErrorMessage s body) ("HTTP".data) = true := by
  have hform : buildHTTPErrorMessage s body =
      'H' :: 'T' :: 'T' :: 'P' :: ' ' :: (natToStr s ++ ':' :: ' ' :: body) := rfl
  rw [hform, containsSub]
  have hpre : (("HTTP".data).isPrefixOf
      ('H' :: 'T' :: 'T' :: 'P' :: ' ' :: (natToStr s ++ ':' :: ' ' :: body))) = true := by
    simp [List.isPrefixOf]
  rw [hpre, Bool.true_or]

/-- Claim C8 counterexample: a 500 response whose body text contains the
network marker is classified as a network error, not as the server
error the claim requires for status 500. -/
theorem sendErrorMessage_C8_counterexample :
    sendErrorMessage (SendOutcome.httpError 500 ("Failed to fetch".data)) =
      ErrMsgKind.network ∧
    ErrMsgKind.network ≠ ErrMsgKind.server := by
  constructor
  · decide
  · decide

/-- Claim C8 (amended): a fetch rejection carrying the browser network
failure message yields the network category; for a non-2xx response whose
error text does not contain the substrings Failed-to-fetch or
NetworkError, status 404 yields not-found, 401 and 403 yield auth, 500
yields server, and any other status yields the generic server category
carrying the decimal status code; a message containing a network marker
is classified network regardless of status. -/
theorem sendErrorMessage_C8_amended :
    (sendErrorMessage (SendOutcome.rejected fetchNetworkFailureMessage) = ErrMsgKind.network) ∧
    (∀ body, noNetMarker (buildHTTPErrorMessage 404 body) →
      sendErrorMessage (SendOutcome.httpError 404 body) = ErrMsgKind.notFound) ∧
    (∀ body, noNetMarker (buildHTTPErrorMessage 401 body) →
      sendErrorMessage (SendOutcome.httpError 401 body) = ErrMsgKind.auth) ∧
    (∀ body, noNetMarker (buildHTTPErrorMessage 403 body) →
      sendErrorMessage (SendOutcome.httpError 403 body) = ErrMsgKind.auth) ∧
    (∀ body, noNetMarker (buildHTTPErrorMessage 500 body) →
      sendErrorMessage (SendOutcome.httpError 500 body) = ErrMsgKind.server) ∧
    (∀ s body, noNetMarker (buildHTTPErrorMessage s body) →
      natToStr s ≠ ("404".data) → natToStr s ≠ ("401".data) →
      natToStr s ≠ ("403".data) → natToStr s ≠ ("500".data) →
      sendErrorMessage (SendOutcome.httpError s body) =
        ErrMsgKind.serverWithCode (natToStr s)) ∧
    (∀ s body, (containsSub (buildHTTPErrorMessage s body) ("Failed to fetch".data) ||
        containsSub (buildHTTPErrorMessage s body) ("NetworkError".data)) = true →
      sendErrorMessage (SendOutcome.httpError s body) = ErrMsgKind.network) := by
  refine ⟨by decide, ?_, ?_, ?_, ?_, ?_, ?_⟩
  · intro body h
    unfold sendErrorMessage classifyError noNetMarker at *
    dsimp only
    rw [h, containsSub_build_HTTP, matchHTTPNum_build]
    simp only [Bool.false_eq_true, if_false, if_true]
    rw [if_pos (by decide)]
  · intro body h
    unfold sendErrorMessage classifyError noNetMarker at *
    dsimp only
    rw [h, containsSub_build_HTTP, matchHTTPNum_build]
    simp only [Bool.false_eq_true, if_false, if_true]
    rw [if_neg (by decide), if_pos (by decide)]
  · intro body h
    unfold sendErrorMessage classifyError noNetMarker at *
    dsimp only
    rw [h, containsSub_build_HTTP, matchHTTPNum_build]
    simp only [Bool.false_eq_true, if_false, if_true]
    rw [if_neg (by decide), if_pos (by decide)]
  · intro body h
    unfold sendErrorMessage classifyError noNetMarker at *
    dsimp only
    rw [h, containsSub_build_HTTP, matchHTTPNum_build]
    simp only [Bool.false_eq_true, if_false, if_true]
    rw [if_neg (by decide), if_neg (by decide), if_pos (by decide)]
  · intro s body h h4 h1 h3 h5
    unfold sendErrorMessage classifyError noNetMarker at *
    dsimp only
    rw [h, containsSub_build_HTTP, matchHTTPNum_build]
    simp only [Bool.false_eq_true, if_false, if_true]
    rw [if_neg h4, if_neg (by simp [h1, h3]), if_neg h5]
  · intro s body h
    unfold sendErrorMessage classifyError
    dsimp only
    rw [h]
    simp

/-- Claim C8 amended witness: the categories at concrete statuses with a
marker-free body, and a status under the fallthrough rule. -/
theorem sendErrorMessage_C8_amended_witness :
    sendErrorMessage (SendOutcome.rejected fetchNetworkFailureMessage) = ErrMsgKind.network ∧
    sendErrorMessage (SendOutcome.httpError 404 ("Not Found".data)) = ErrMsgKind.notFound ∧
    sendErrorMessage (SendOutcome.httpError 401 ("nope".data)) = ErrMsgKind.auth ∧
    sendErrorMessage (SendOutcome.httpError 403 ("nope".data)) = ErrMsgKind.auth ∧
    sendErrorMessage (SendOutcome.httpError 500 ("boom".data)) = ErrMsgKind.server ∧
    sendErrorMessage (SendOutcome.httpError 418 ("teapot".data)) =
      ErrMsgKind.serverWithCode (natToStr 418) ∧
    sendErrorMessage (SendOutcome.httpError 503 ("NetworkError while".data)) =
      ErrMsgKind.network :=
  ⟨sendErrorMessage_C8_amended.1,
   sendErrorMessage_C8_amended.2.1 ("Not Found".data) (by unfold noNetMarker; decide),
   sendErrorMessage_C8_amended.2.2.1 ("nope".data) (by unfold noNetMarker; decide),
   sendErrorMessage_C8_amended.2.2.2.1 ("nope".data) (by unfold noNetMarker; decide),
   sendErrorMessage_C8_amended.2.2.2.2.1 ("boom".data) (by unfold noNetMarker; decide),
   sendErrorMessage_C8_amended.2.2.2.2.2.1 418 ("teapot".data) (by unfold noNetMarker; decide)
     (by decide) (by decide) (by decide) (by decide),
   sendErrorMessage_C8_amended.2.2.2.2.2.2 503 ("NetworkError while".data) (by decide)⟩

/-- Mapping an id-preserving function through the list commutes with the
id lookup. -/
theorem find?_map_id_preserving (g : Conversation → Conversation)
    (hg : ∀ c, (g c).id = c.id) (l : List Conversation) (j : Str) :
    (l.map g).find? (fun c => c.id = j) = (l.find? (fun c => c.id = j)).map g := by
  induction l with
  | nil => rfl
  | cons a t ih =>
    by_cases h : a.id = j
    · rw [List.map_cons, List.find?_cons_of_pos _ (by simp [hg, h]),
          List.find?_cons_of_pos _ (by simp [h]), Option.map_some']
    · rw [List.map_cons, List.find?_cons_of_neg _ (by simp [hg, h]),
          List.find?_cons_of_neg _ (by simp [h]), ih]

/-- The per-id message overwrite leaves every other id untouched. -/
theorem getConv_map_upd (cid : Str) (ms : List Message) (convs : List Conversation)
    (j : Str) (hj : j ≠ cid) :
    getConv (convs.map (fun c => if c.id = cid then { c with messages := ms } else c)) j =
      getConv convs j := by
  unfold getConv
  rw [find?_map_id_preserving _ (fun c => by split <;> rfl)]
  cases hfj : convs.find? (fun c => c.id = j) with
  | none => rfl
  | some cj =>
    have hid : cj.id = j := by simpa using List.find?_some hfj
    rw [Option.map_some']
    congr 1
    rw [if_neg (by rw [hid]; exact hj)]

/-- Appending a record under a different id leaves the lookup unchanged. -/
theorem getConv_append_single (convs : List Conversation) (newc : Conversation)
    (j : Str) (hj : ¬(newc.id = j)) :
    getConv (convs ++ [newc]) j = getConv convs j := by
  unfold getConv
  rw [List.find?_append]
  have hnone : List.find? (fun c => c.id = j) [newc] = none := by
    rw [List.find?_cons_of_neg _ (by simp [hj])]
    rfl
  rw [hnone, Option.or_none]

/-- The resolution leaves every conversation other than the request one
untouched. -/
theorem getConv_applyResolution_other (label : Str) (now : Nat) (r : Resolution)
    (convs : List Conversation) (j : Str) (hj : j ≠ r.cid) :
    getConv (applyResolution label now r convs) j = getConv convs j := by
  cases r with
  | success cid sid captured reply =>
    replace hj : j ≠ cid := hj
    unfold applyResolution
    dsimp only
    cases hfind : convs.find? (fun c => c.id = cid) with
    | some c0 => exact getConv_map_upd cid (captured ++ [reply]) convs j hj
    | none =>
      rw [getConv_append_single _ _ _ (by simpa using Ne.symm hj)]
      exact getConv_map_upd cid (captured ++ [reply]) convs j hj
  | failure cid sid captured errMsg =>
    replace hj : j ≠ cid := hj
    unfold applyResolution
    dsimp only
    cases hfind : convs.find? (fun c => c.id = cid) with
    | some c0 => exact getConv_map_upd cid (c0.messages ++ [errMsg]) convs j hj
    | none =>
      rw [getConv_append_single _ _ _ (by simpa using Ne.symm hj)]
      exact getConv_map_upd cid (captured ++ [errMsg]) convs j hj

/-- The record the resolution leaves under the request id is determined
by the record previously under that id. -/
theorem getConv_applyResolution_self (label : Str) (now : Nat) (r : Resolution)
    (convs : List Conversation) :
    getConv (applyResolution label now r convs) r.cid =
      some (resolvedConvAt label now r (getConv convs r.cid)) := by
  cases r with
  | success cid sid captured reply =>
    unfold applyResolution getConv resolvedConvAt
    simp only [Resolution.cid]
    cases hfind : convs.find? (fun c => c.id = cid) with
    | some c0 =>
      have hid : c0.id = cid := by simpa using List.find?_some hfind
      rw [find?_map_id_preserving _ (fun c => by split <;> rfl), hfind, Option.map_some']
      dsimp only
      rw [if_pos hid]
    | none =>
      rw [List.find?_append, find?_map_id_preserving _ (fun c => by split <;> rfl), hfind]
      simp only [Option.map_none', Option.none_or]
      rw [List.find?_cons_of_pos _ (by simp)]
  | failure cid sid captured errMsg =>
    unfold applyResolution getConv resolvedConvAt
    simp only [Resolution.cid]
    cases hfind : convs.find? (fun c => c.id = cid) with
    | some c0 =>
      have hid : c0.id = cid := by simpa using List.find?_some hfind
      rw [find?_map_id_preserving _ (fun c => by split <;> rfl), hfind, Option.map_some']
      dsimp only
      rw [if_pos hid]
    | none =>
      rw [List.find?_append, find?_map_id_preserving _ (fun c => by split <;> rfl), hfind]
      simp only [Option.map_none', Option.none_or]
      rw [List.find?_cons_of_pos _ (by simp)]

/-- Claim C1: a resolving send appends its resolution message to the
conversation whose id was captured at send time: that conversation ends
with the resolution message, every other id is untouched, the
conversation-list effect is the same function of the list regardless of
which conversation is active at resolution time, and resolutions of two
different pending conversations land identically under either
interleaving order. -/
theorem applyResolution_C1 (label : Str) (now : Nat) (r : Resolution)
    (convs : List Conversation) :
    (∃ c, getConv (applyResolution label now r convs) r.cid = some c ∧
      ∃ pre, c.messages = pre ++ [r.resMsg]) ∧
    (∀ j, j ≠ r.cid → getConv (applyResolution label now r convs) j = getConv convs j) ∧
    (∀ st : UIState, (applyResolutionUI label now r st).conversations =
        applyResolution label now r st.conversations ∧
      (applyResolutionUI label now r st).activeId = st.activeId) ∧
    (∀ r2 : Resolution, r.cid ≠ r2.cid → ∀ j,
      getConv (applyResolution label now r2 (applyResolution label now r convs)) j =
        getConv (applyResolution label now r (applyResolution label now r2 convs)) j) := by
  refine ⟨?_, ?_, ?_, ?_⟩
  · refine ⟨resolvedConvAt label now r (getConv convs r.cid),
      getConv_applyResolution_self label now r convs, ?_⟩
    cases r with
    | success cid sid captured reply =>
      simp only [Resolution.cid, Resolution.resMsg]
      cases getConv convs cid with
      | some c0 => exact ⟨captured, rfl⟩
      | none => exact ⟨captured, rfl⟩
    | failure cid sid captured errMsg =>
      simp only [Resolution.cid, Resolution.resMsg]
      cases getConv convs cid with
      | some c0 => exact ⟨c0.messages, rfl⟩
      | none => exact ⟨captured, rfl⟩
  · intro j hj
    exact getConv_applyResolution_other label now r convs j hj
  · intro st
    exact ⟨rfl, rfl⟩
  · intro r2 hne j
    by_cases hj1 : j = r.cid
    · subst hj1
      have e1 : getConv (applyResolution label now r2 (applyResolution label now r convs)) r.cid =
          getConv (applyResolution label now r convs) r.cid :=
        getConv_applyResolution_other label now r2 _ _ hne
      have e2 := getConv_applyResolution_self label now r convs
      have e3 := getConv_applyResolution_self label now r (applyResolution label now r2 convs)
      have e4 : getConv (applyResolution label now r2 convs) r.cid = getConv convs r.cid :=
        getConv_applyResolution_other label now r2 convs _ hne
      rw [e1, e2, e3, e4]
    · by_cases hj2 : j = r2.cid
      · subst hj2
        have e1 := getConv_applyResolution_self label now r2 (applyResolution label now r convs)
        have e2 : getConv (applyResolution label now r convs) r2.cid = getConv convs r2.cid :=
          getConv_applyResolution_other label now r convs _ (Ne.symm hne)
        have e3 : getConv (applyResolution label now r (applyResolution label now r2 convs))
            r2.cid = getConv (applyResolution label now r2 convs) r2.cid :=
          getConv_applyResolution_other label now r _ _ (Ne.symm hne)
        have e4 := getConv_applyResolution_self label now r2 convs
        rw [e1, e2, e3, e4]
      · have e1 : getConv (applyResolution label now r2 (applyResolution label now r convs)) j =
            getConv (applyResolution label now r convs) j :=
          getConv_applyResolution_other label now r2 _ _ hj2
        have e2 : getConv (applyResolution label now r convs) j = getConv convs j :=
          getConv_applyResolution_other label now r convs _ hj1
        have e3 : getConv (applyResolution label now r (applyResolution label now r2 convs)) j =
            getConv (applyResolution label now r2 convs) j :=
          getConv_applyResolution_other label now r _ _ hj1
        have e4 : getConv (applyResolution label now r2 convs) j = getConv convs j :=
          getConv_applyResolution_other label now r2 convs _ hj2
        rw [e1, e2, e3, e4]

/-- A message and two resolutions used as concrete witness inputs. -/
def sampleUserMessage : Message :=
  { role := ("user".data), content := ("hi".data), timestamp := none, id := none }

def sampleReply : Message :=
  { role := ("assistant".data), content := ("yo".data), timestamp := none, id := none }

def sampleSuccess : Resolution :=
  Resolution.success ("c1".data) ("s1".data) [sampleUserMessage] sampleReply

def sampleFailure : Resolution :=
  Resolution.failure ("c2".data) ("s2".data) [sampleUserMessage] sampleReply

/-- Claim C1 witness: the four conjuncts at concrete inputs, with the
inequality hypotheses discharged by evaluation. -/
theorem applyResolution_C1_witness :
    (∃ c, getConv (applyResolution [] 0 sampleSuccess []) sampleSuccess.cid = some c ∧
      ∃ pre, c.messages = pre ++ [sampleSuccess.resMsg]) ∧
    getConv (applyResolution [] 0 sampleSuccess []) ("zz".data) = getConv [] ("zz".data) ∧
    ((applyResolutionUI [] 0 sampleSuccess ⟨[], none, []⟩).conversations =
        applyResolution [] 0 sampleSuccess [] ∧
      (applyResolutionUI [] 0 sampleSuccess ⟨[], none, []⟩).activeId = none) ∧
    getConv (applyResolution [] 0 sampleFailure (applyResolution [] 0 sampleSuccess []))
        ("c1".data) =
      getConv (applyResolution [] 0 sampleSuccess (applyResolution [] 0 sampleFailure []))
        ("c1".data) :=
  ⟨(applyResolution_C1 [] 0 sampleSuccess []).1,
   (applyResolution_C1 [] 0 sampleSuccess []).2.1 ("zz".data) (by decide),
   (applyResolution_C1 [] 0 sampleSuccess []).2.2.1 ⟨[], none, []⟩,
   (applyResolution_C1 [] 0 sampleSuccess []).2.2.2 sampleFailure (by decide) ("c1".data)⟩

/-- Claim C2: when the request conversation is absent from the list at
resolution time (deleted while the send was pending), the resolution
re-creates a record with the same id and the same session id, holding
the captured messages followed by the resolution message — the response
is not dropped; this holds for the success and for the error branch. -/
theorem applyResolution_C2 (label : Str) (now : Nat) (r : Resolution)
    (convs : List Conversation) (h : getConv convs r.cid = none) :
    ∃ c, getConv (applyResolution label now r convs) r.cid = some c ∧
      c.id = r.cid ∧ c.sessionId = r.sid ∧ c.messages = r.captured ++ [r.resMsg] := by
  refine ⟨resolvedConvAt label now r none, ?_, ?_, ?_, ?_⟩
  · rw [getConv_applyResolution_self, h]
  · cases r <;> rfl
  · cases r <;> rfl
  · cases r <;> rfl

/-- Claim C2 witness: resolving against an empty conversation list (the
conversation was deleted) on both the success and the failure shape. -/
theorem applyResolution_C2_witness :
    (∃ c, getConv (applyResolution [] 0 sampleSuccess []) sampleSuccess.cid = some c ∧
      c.id = sampleSuccess.cid ∧ c.sessionId = sampleSuccess.sid ∧
      c.messages = sampleSuccess.captured ++ [sampleSuccess.resMsg]) ∧
    (∃ c, getConv (applyResolution [] 0 sampleFailure []) sampleFailure.cid = some c ∧
      c.id = sampleFailure.cid ∧ c.sessionId = sampleFailure.sid ∧
      c.messages = sampleFailure.captured ++ [sampleFailure.resMsg]) :=
  ⟨applyResolution_C2 [] 0 sampleSuccess [] rfl,
   applyResolution_C2 [] 0 sampleFailure [] rfl⟩

/-- Claim C9: confirming a bulk delete over a selected id set leaves the
persisted list equal to the in-memory list; the result is the original
list with exactly the selected ids filtered out, in their original order
— followed, only when the active conversation was deleted and no
unarchived conversation survives, by the single fresh record that
handleNewConversation appends; no surviving conversation carries a
selected id (the fresh id being fresh, it is not selected); survivors
are the same records in the same relative order. -/
theorem handleBulkDelete_C9 (sel : List Str) (newId newSessionId : Str) (now : Nat)
    (label : Str) (initialMessage : Message) (st : BulkState)
    (h : st.stored = st.conversations)
    (hfresh : sel.contains newId = false) :
    (handleBulkDelete sel newId newSessionId now label initialMessage st).stored =
      (handleBulkDelete sel newId newSessionId now label initialMessage st).conversations ∧
    ((handleBulkDelete sel newId newSessionId now label initialMessage st).conversations =
        st.conversations.filter (fun c => !(sel.contains c.id)) ∨
      (handleBulkDelete sel newId newSessionId now label initialMessage st).conversations =
        st.conversations.filter (fun c => !(sel.contains c.id)) ++
          [freshConversation newId newSessionId now label initialMessage]) ∧
    (∀ c, c ∈ (handleBulkDelete sel newId newSessionId now label initialMessage st).conversations →
      sel.contains c.id = false) ∧
    (st.conversations.filter (fun c => !(sel.contains c.id))).Sublist st.conversations := by
  unfold handleBulkDelete
  by_cases hsel : sel.isEmpty
  · rw [if_pos hsel]
    have hnil : sel = [] := List.isEmpty_iff.mp hsel
    subst hnil
    refine ⟨h, Or.inl ?_, ?_, List.filter_sublist _⟩
    · simp [List.contains]
    · intro c hc
      rfl
  · rw [if_neg hsel]
    dsimp only
    have hmem : ∀ c, c ∈ st.conversations.filter (fun c => !(sel.contains c.id)) →
        sel.contains c.id = false := by
      intro c hc
      have hp := (List.mem_filter.mp hc).2
      simpa [Bool.not_eq_true'] using hp
    split
    · split
      · split
        · exact ⟨rfl, Or.inl rfl, hmem, List.filter_sublist _⟩
        · refine ⟨rfl, Or.inr rfl, ?_, List.filter_sublist _⟩
          intro c hc
          rw [List.mem_append] at hc
          cases hc with
          | inl hcf => exact hmem c hcf
          | inr hcf =>
            have hce : c = freshConversation newId newSessionId now label initialMessage := by
              simpa using hcf
            subst hce
            exact hfresh
      · exact ⟨rfl, Or.inl rfl, hmem, List.filter_sublist _⟩
    · exact ⟨rfl, Or.inl rfl, hmem, List.filter_sublist _⟩

/-- Two conversation records used as concrete witness inputs. -/
def convA : Conversation :=
  { id := ("a".data), title := [], timestamp := 0, messages := [],
    sessionId := ("sa".data), pinned := none, archived := none }

def convB : Conversation :=
  { id := ("b".data), title := [], timestamp := 0, messages := [],
    sessionId := ("sb".data), pinned := none, archived := none }

/-- Claim C9 witness: deleting the only (active, unarchived-free after
deletion) conversation, which exercises the fresh-record branch; the
no-selected-id conjunct is instantiated at the fresh record. -/
theorem handleBulkDelete_C9_witness :
    (handleBulkDelete [("a".data)] ("n".data) ("sn".data) 0 [] sampleReply
        ⟨[convA], [convA], some ("a".data)⟩).stored =
      (handleBulkDelete [("a".data)] ("n".data) ("sn".data) 0 [] sampleReply
        ⟨[convA], [convA], some ("a".data)⟩).conversations ∧
    ((handleBulkDelete [("a".data)] ("n".data) ("sn".data) 0 [] sampleReply
        ⟨[convA], [convA], some ("a".data)⟩).conversations =
        [convA].filter (fun c => !(([("a".data)] : List Str).contains c.id)) ∨
      (handleBulkDelete [("a".data)] ("n".data) ("sn".data) 0 [] sampleReply
        ⟨[convA], [convA], some ("a".data)⟩).conversations =
        [convA].filter (fun c => !(([("a".data)] : List Str).contains c.id)) ++
          [freshConversation ("n".data) ("sn".data) 0 [] sampleReply]) ∧
    ([("a".data)] : List Str).contains
        (freshConversation ("n".data) ("sn".data) 0 [] sampleReply).id = false ∧
    ([convA].filter (fun c => !(([("a".data)] : List Str).contains c.id))).Sublist [convA] :=
  ⟨(handleBulkDelete_C9 [("a".data)] ("n".data) ("sn".data) 0 [] sampleReply
      ⟨[convA], [convA], some ("a".data)⟩ rfl (by decide)).1,
   (handleBulkDelete_C9 [("a".data)] ("n".data) ("sn".data) 0 [] sampleReply
      ⟨[convA], [convA], some ("a".data)⟩ rfl (by decide)).2.1,
   (handleBulkDelete_C9 [("a".data)] ("n".data) ("sn".data) 0 [] sampleReply
      ⟨[convA], [convA], some ("a".data)⟩ rfl (by decide)).2.2.1
     (freshConversation ("n".data) ("sn".data) 0 [] sampleReply) (by decide),
   (handleBulkDelete_C9 [("a".data)] ("n".data) ("sn".data) 0 [] sampleReply
      ⟨[convA], [convA], some ("a".data)⟩ rfl (by decide)).2.2.2⟩
